import Mathlib

/-!
Verification of the litellm watsonx adapter, the pass-through routing
endpoints, and the secret-protection helpers, against a shallow embedding
of the Python source.

Python dictionaries are embedded as association lists `List (String × A)`
with insertion updating an existing key in place (Python `d[k] = v`),
`pop` removing a key, and `get` returning the binding of a key.  Stateful
mutation of `optional_params` in the source becomes explicit state
passing.  Collaborators that live outside the analysed sources (httpx URL
handling, the token generator, the NaCl secret box, prompt conversion)
are passed in as function parameters.
-/

set_option autoImplicit false

namespace LitellmSpec

universe u

variable {A : Type u} {V : Type u}

/-- Python `d.get(k)` on a dict embedded as an association list:
the value bound to `k`, if any. -/
def dictGet : List (String × A) → String → Option A
  | [], _ => none
  | p :: t, k => if p.1 = k then some p.2 else dictGet t k

/-- Python `d[k] = v`: update the binding of `k` in place when present,
otherwise append a new binding (insertion order is preserved; Python dict
keys are unique, so replacing the first binding is exact). -/
def dictInsert : List (String × A) → String → A → List (String × A)
  | [], k, v => [(k, v)]
  | p :: t, k, v => if p.1 = k then (k, v) :: t else p :: dictInsert t k v

/-- Python `d.pop(k, default)` (the resulting dict): the binding of `k`
removed. -/
def dictPop (l : List (String × A)) (k : String) : List (String × A) :=
  l.filter (fun p => p.1 != k)

/-- The keys of a dict are pairwise distinct (always true of a Python dict). -/
def keysNodup (l : List (String × A)) : Prop :=
  (l.map Prod.fst).Nodup

/-- A value occurring in `optional_params`: either an opaque caller value
or a nested dict (the `extra_body` object). -/
inductive PVal (V : Type u) where
  | v : V → PVal V
  | dict : List (String × V) → PVal V

deriving DecidableEq

/-- The top-level destination of a canonical parameter name in the
`for k, v in non_default_params.items()` elif chain of
`IBMWatsonXAIConfig.map_openai_params`
(src/litellm/llms/watsonx/completion/transformation.py, lines 153-166):
`some n` when the branch writes `optional_params[n] = v`, `none` when
the key is not one of those branches. -/
def topDest (k : String) : Option String :=
  if k = "max_tokens" then some "max_new_tokens"
  else if k = "stream" then some "stream"
  else if k = "temperature" then some "temperature"
  else if k = "top_p" then some "top_p"
  else if k = "frequency_penalty" then some "repetition_penalty"
  else if k = "seed" then some "random_seed"
  else if k = "stop" then some "stop_sequences"
  else none

/-- The extra-body destination of a canonical parameter name in the same
elif chain (transformation.py, lines 167-180): `some n` when the branch
writes `extra_body[n] = v`. -/
def extraDest (k : String) : Option String :=
  if k = "decoding_method" then some "decoding_method"
  else if k = "min_tokens" then some "min_new_tokens"
  else if k = "top_k" then some "top_k"
  else if k = "truncate_input_tokens" then some "truncate_input_tokens"
  else if k = "length_penalty" then some "length_penalty"
  else if k = "time_limit" then some "time_limit"
  else if k = "return_options" then some "return_options"
  else none

/-- One iteration of the loop of `map_openai_params` (transformation.py,
lines 152-180): the state is the pair `(optional_params, extra_body)`;
the elif chain dispatches on the destination of the key (keys matching
no branch are dropped). -/
def mapParamStep (st : List (String × PVal V) × List (String × V)) (kv : String × V) :
    List (String × PVal V) × List (String × V) :=
  match topDest kv.1 with
  | some n => (dictInsert st.1 n (PVal.v kv.2), st.2)
  | none =>
    match extraDest kv.1 with
    | some n => (st.1, dictInsert st.2 n kv.2)
    | none => st

/-- `IBMWatsonXAIConfig.map_openai_params`
(src/litellm/llms/watsonx/completion/transformation.py, lines 144-184):
iterate the loop over `non_default_params`, then attach the accumulated
`extra_body` dict under the key `"extra_body"` only when it is non-empty
(Python `if extra_body:`). -/
def map_openai_params (non_default_params : List (String × V))
    (optional_params : List (String × PVal V)) (model : String) (drop_params : Bool) :
    List (String × PVal V) :=
  let r := non_default_params.foldl mapParamStep (optional_params, [])
  if r.2.isEmpty then r.1 else dictInsert r.1 "extra_body" (PVal.dict r.2)

/-- Python `s.startswith(p)` on the character sequence (a structurally
computable equivalent of `String.startsWith`). -/
def pyStartsWith (s p : String) : Bool :=
  p.data.isPrefixOf s.data

/-- One step of Python `s.split(sep)` for a single-character separator,
over character lists. -/
def splitOnChar (sep : Char) : List Char → List (List Char)
  | [] => [[]]
  | c :: rest =>
    if c = sep then [] :: splitOnChar sep rest
    else
      match splitOnChar sep rest with
      | [] => [[c]]
      | h :: t => (c :: h) :: t

/-- Python `s.split(sep)` for a single-character separator. -/
def pySplit (s : String) (sep : Char) : List String :=
  (splitOnChar sep s.data).map String.mk

/-- Python `s.rstrip(c)`: drop trailing characters equal to `c`. -/
def pyRStrip (s : String) (c : Char) : String :=
  String.mk ((s.data.reverse.dropWhile (fun x => x = c)).reverse)

/-- A canonical chat message: role and content. -/
structure Message where
  role : String
  content : String

deriving DecidableEq

/-- `WatsonXAIError` (the adapter's error type): status code and message. -/
structure WatsonXAIError where
  status_code : Nat
  message : String

deriving DecidableEq

/-- The watsonx native payload produced by `transform_request`: `input`,
`moderations` and `parameters` are always present; `model_id` and
`project_id` are present exactly when the corresponding Python keys are
set. -/
structure WatsonxPayload (V : Type u) where
  input : String
  moderations : PVal V
  parameters : List (String × PVal V)
  model_id : Option String
  project_id : Option V

deriving DecidableEq

/-- `IBMWatsonXAIConfig.transform_request`
(src/litellm/llms/watsonx/completion/transformation.py, lines 228-257).
`convert_prompt` stands for the `convert_watsonx_messages_to_prompt`
collaborator (applied to the model, the provider — the first `/`-segment
of the model — and the messages) and `api_project_id` for the
`project_id` entry of the `_get_api_params` collaborator's result;
neither collaborator is among the analysed sources.  The in-place
mutation of `optional_params` (pop `extra_body`, merge its entries, pop
`moderations`) becomes explicit dict operations. -/
def transform_request (convert_prompt : String → String → List Message → String)
    (api_project_id : V) (model : String) (messages : List Message)
    (optional_params : List (String × PVal V)) : WatsonxPayload V :=
  let provider := (pySplit model '/').headD ""
  let prompt := convert_prompt model provider messages
  let extra_body_params : List (String × V) :=
    match dictGet optional_params "extra_body" with
    | some (.dict d) => d
    | _ => []
  let op1 := dictPop optional_params "extra_body"
  let op2 := extra_body_params.foldl (fun acc kv => dictInsert acc kv.1 (.v kv.2)) op1
  let moderations := (dictGet op2 "moderations").getD (.dict [])
  let op3 := dictPop op2 "moderations"
  { input := prompt
    moderations := moderations
    parameters := op3
    model_id := if pyStartsWith model "deployment/" then none else some model
    project_id := if pyStartsWith model "deployment/" then none else some api_project_id }

/-- `IBMWatsonXAIConfig.validate_environment`
(src/litellm/llms/watsonx/completion/transformation.py, lines 277-296).
The incoming `headers` are discarded (the Python code rebinds the name
to a fresh dict).  `generate_token` stands for the
`_generate_watsonx_token` collaborator (taking `api_key` and the falsy
`token`; it may fail when no credential resolves); `optional_params` is
read only for its `"token"` entry, whose value is a string here, and
Python truthiness of the token is the non-emptiness test. -/
def validate_environment (headers : List (String × String)) (model : String)
    (messages : List Message) (optional_params : List (String × String))
    (api_key : Option String)
    (generate_token : Option String → Option String → Except WatsonXAIError String) :
    Except WatsonXAIError (List (String × String)) :=
  let headers0 : List (String × String) :=
    [("Content-Type", "application/json"), ("Accept", "application/json")]
  match dictGet optional_params "token" with
  | some t =>
    if t = "" then
      (generate_token api_key (some t)).map
        (fun tok => dictInsert headers0 "Authorization" ("Bearer " ++ tok))
    else
      .ok (dictInsert headers0 "Authorization" ("Bearer " ++ t))
  | none =>
    (generate_token api_key none).map
      (fun tok => dictInsert headers0 "Authorization" ("Bearer " ++ tok))

/-- Modelled from the spec: `WatsonXAIEndpoint.TEXT_GENERATION`, the
non-streaming text-generation endpoint template (the `WatsonXAIEndpoint`
enum lives in litellm's watsonx type definitions, not among the analysed
sources; the spec requires distinct non-streaming, streaming and
deployment-addressed templates). -/
def TEXT_GENERATION : String := "/ml/v1/text/generation"

/-- Modelled from the spec: `WatsonXAIEndpoint.TEXT_GENERATION_STREAM`,
the streaming text-generation endpoint template. -/
def TEXT_GENERATION_STREAM : String := "/ml/v1/text/generation_stream"

/-- Modelled from the spec:
`WatsonXAIEndpoint.DEPLOYMENT_TEXT_GENERATION` with its
`{deployment_id}` placeholder filled in — deployment addressing derives
a path segment from the model identifier. -/
def DEPLOYMENT_TEXT_GENERATION (deployment_id : String) : String :=
  "/ml/v1/deployments/" ++ deployment_id ++ "/text/generation"

/-- Modelled from the spec:
`WatsonXAIEndpoint.DEPLOYMENT_TEXT_GENERATION_STREAM` with its
`{deployment_id}` placeholder filled in. -/
def DEPLOYMENT_TEXT_GENERATION_STREAM (deployment_id : String) : String :=
  "/ml/v1/deployments/" ++ deployment_id ++ "/text/generation_stream"

/-- Modelled from the spec: `litellm.WATSONX_DEFAULT_API_VERSION`, the
default fallback for the required API-version query parameter (not among
the analysed sources). -/
def WATSONX_DEFAULT_API_VERSION : String := "2024-03-13"

/-- Python `a or b` on optional strings: `None` and `""` are falsy. -/
def pyOr (a b : Option String) : Option String :=
  match a with
  | some s => if s = "" then b else some s
  | none => b

/-- The base-URL resolution step of `IBMWatsonXAIConfig.get_complete_url`
(src/litellm/llms/watsonx/completion/transformation.py, lines 305-311):
the explicit `api_base` argument, else the environment aliases
`WATSONX_API_BASE`, `WATSONX_URL`, `WX_URL`, `WML_URL` chained with
Python `or`. -/
def watsonx_url_resolution (env : String → Option String) (api_base : Option String) :
    Option String :=
  pyOr api_base (pyOr (env "WATSONX_API_BASE")
    (pyOr (env "WATSONX_URL") (pyOr (env "WX_URL") (env "WML_URL"))))

/-- `IBMWatsonXAIConfig.get_complete_url`
(src/litellm/llms/watsonx/completion/transformation.py, lines 298-346).
`env` stands for the `get_secret_str` environment lookup; the result is
the complete URL, or the `WatsonXAIError` the Python code raises.  The
`optional_params` values read here (`space_id` presence, `api_version`)
are strings. -/
def get_complete_url (env : String → Option String) (api_base : Option String)
    (model : String) (optional_params : List (String × String))
    (stream : Bool) : Except WatsonXAIError String :=
  match watsonx_url_resolution env api_base with
  | none =>
    .error { status_code := 401,
             message := "Error: Watsonx URL not set. Set WATSONX_API_BASE in environment variables or pass in as parameter - 'api_base='." }
  | some url =>
    if pyStartsWith model "deployment/" then
      if (dictGet optional_params "space_id").isNone then
        .error { status_code := 401,
                 message := "Error: space_id is required for models called using the 'deployment/' endpoint. Pass in the space_id as a parameter or set it in the WX_SPACE_ID environment variable." }
      else
        let deployment_id := String.intercalate "/" ((pySplit model '/').drop 1)
        let endpoint := if stream then DEPLOYMENT_TEXT_GENERATION_STREAM deployment_id
          else DEPLOYMENT_TEXT_GENERATION deployment_id
        let url2 := pyRStrip url '/' ++ endpoint
        let api_version := (dictGet optional_params "api_version").getD WATSONX_DEFAULT_API_VERSION
        .ok (url2 ++ "?version=" ++ api_version)
    else
      let endpoint := if stream then TEXT_GENERATION_STREAM else TEXT_GENERATION
      let url2 := pyRStrip url '/' ++ endpoint
      let api_version := (dictGet optional_params "api_version").getD WATSONX_DEFAULT_API_VERSION
      .ok (url2 ++ "?version=" ++ api_version)

/-- Containment of one character list in another. -/
def listContainsSub (sub : List Char) : List Char → Bool
  | [] => sub.isEmpty
  | c :: rest => sub.isPrefixOf (c :: rest) || listContainsSub sub rest

/-- Python `sub in s` substring test (used on composed URLs). -/
def strContains (s sub : String) : Bool :=
  listContainsSub sub.data s.data

/-- The streaming-detection step of `anthropic_proxy_route`
(src/litellm/proxy/pass_through_endpoints/llm_passthrough_endpoints.py,
lines 191-197): `is_streaming_request` starts `False`; for a POST
request the body is parsed with `await request.json()` — whose failure
(absent or non-JSON body) propagates, there being no try/except — and
the parsed body's `stream` field is tested for truthiness (`truthy`;
a missing key, Python `None`, is falsy).  The composed URL is not
consulted. -/
def anthropic_is_streaming (truthy : V → Bool) (method : String)
    (request_json : Except Unit (List (String × V))) : Except Unit Bool :=
  if method = "POST" then
    match request_json with
    | .error e => .error e
    | .ok body =>
      match dictGet body "stream" with
      | some v => .ok (truthy v)
      | none => .ok false
  else
    .ok false

/-- The streaming-detection step of `assemblyai_proxy_route`
(src/litellm/proxy/pass_through_endpoints/llm_passthrough_endpoints.py,
lines 345-351): identical in structure to the anthropic one — POST-only
body inspection via `await request.json()` with no try/except. -/
def assemblyai_is_streaming (truthy : V → Bool) (method : String)
    (request_json : Except Unit (List (String × V))) : Except Unit Bool :=
  if method = "POST" then
    match request_json with
    | .error e => .error e
    | .ok body =>
      match dictGet body "stream" with
      | some v => .ok (truthy v)
      | none => .ok false
  else
    .ok false

/-- The outbound request description handed to
`create_pass_through_route` / `endpoint_func`. -/
structure PassThroughCall where
  endpoint : String
  target : String
  custom_headers : List (String × String)
  stream : Bool
  query_params : List (String × String)

deriving DecidableEq

/-- `_base_openai_pass_through_handler`
(src/litellm/proxy/pass_through_endpoints/llm_passthrough_endpoints.py,
lines 447-487), the shared openai/azure handler, up to the hand-off to
the forwarding executor: normalize the endpoint path, compose the
outbound URL, detect streaming by substring search for `"stream"` in the
composed URL, and attach the dual authentication headers.  `url_path`
stands for `httpx.URL(endpoint).path` and `copy_with_path` for
`httpx.URL(base).copy_with(path=...)`, both httpx collaborators. -/
def base_openai_pass_through_handler (url_path : String → String)
    (copy_with_path : String → String → String) (endpoint : String)
    (base_target_url : String) (api_key : String)
    (query_params : List (String × String)) : PassThroughCall :=
  let encoded0 := url_path endpoint
  let encoded := if pyStartsWith encoded0 "/" then encoded0 else "/" ++ encoded0
  let updated_url := copy_with_path base_target_url encoded
  let is_streaming_request := strContains updated_url "stream"
  { endpoint := endpoint
    target := updated_url
    custom_headers := [("authorization", "Bearer " ++ api_key), ("api-key", api_key)]
    stream := is_streaming_request
    query_params := query_params }

/-- A Python value passed to the secret helpers: a string, or some other
(non-string) value, distinguished by the helpers' `isinstance(value, str)`
checks. -/
inductive SecretVal (V : Type u) where
  | str : String → SecretVal V
  | other : V → SecretVal V

deriving DecidableEq

/-- The base64 alphabet: character of a sextet (0-63). -/
def sextetToChar (n : Nat) : Char :=
  if n < 26 then Char.ofNat (65 + n)
  else if n < 52 then Char.ofNat (97 + (n - 26))
  else if n < 62 then Char.ofNat (48 + (n - 52))
  else if n = 62 then '+'
  else '/'

/-- The base64 alphabet: sextet of a character, if it is in the alphabet. -/
def charToSextet (c : Char) : Option Nat :=
  if 65 ≤ c.toNat ∧ c.toNat ≤ 90 then some (c.toNat - 65)
  else if 97 ≤ c.toNat ∧ c.toNat ≤ 122 then some (c.toNat - 97 + 26)
  else if 48 ≤ c.toNat ∧ c.toNat ≤ 57 then some (c.toNat - 48 + 52)
  else if c = '+' then some (62 : Nat)
  else if c = '/' then some (63 : Nat)
  else none

/-- Python `base64.b64encode` on a byte sequence (bytes as `Nat < 256`):
standard base64 with `=` padding, three bytes to four characters. -/
def b64encodeBytes : List Nat → List Char
  | a :: b :: c :: rest =>
    sextetToChar (a / 4) :: sextetToChar ((a % 4) * 16 + b / 16) ::
      sextetToChar ((b % 16) * 4 + c / 64) :: sextetToChar (c % 64) :: b64encodeBytes rest
  | [a, b] =>
    [sextetToChar (a / 4), sextetToChar ((a % 4) * 16 + b / 16),
     sextetToChar ((b % 16) * 4), '=']
  | [a] =>
    [sextetToChar (a / 4), sextetToChar ((a % 4) * 16), '=', '=']
  | [] => []

/-- Python `base64.b64decode` on a character sequence: four characters
to three bytes, with `=` padding closing the input; `none` models the
`binascii.Error` raised on malformed input. -/
def b64decodeChars : List Char → Option (List Nat)
  | c1 :: c2 :: c3 :: c4 :: rest =>
    match charToSextet c1, charToSextet c2 with
    | some s1, some s2 =>
      if c3 = '=' then
        if c4 = '=' ∧ rest = [] then some [s1 * 4 + s2 / 16] else none
      else
        match charToSextet c3 with
        | some s3 =>
          if c4 = '=' then
            if rest = [] then some [s1 * 4 + s2 / 16, (s2 % 16) * 16 + s3 / 4] else none
          else
            match charToSextet c4 with
            | some s4 =>
              (b64decodeChars rest).map
                (fun t => (s1 * 4 + s2 / 16) :: ((s2 % 16) * 16 + s3 / 4) ::
                  ((s3 % 4) * 64 + s4) :: t)
            | none => none
        | none => none
    | _, _ => none
  | [] => some []
  | _ => none

variable {E : Type u}

/-- `encrypt_value` (src/litellm/proxy/common_utils/encrypt_decrypt_utils.py,
lines 58-76): SHA-256-hash the signing key, build a NaCl `SecretBox`
from the hash, and encrypt the UTF-8-encoded value.  `sha256` and the
box encryption `box_encrypt` (ciphertext bytes of a message string under
a key) are external library collaborators passed as parameters. -/
def encrypt_value (sha256 : String → List Nat)
    (box_encrypt : List Nat → String → List Nat)
    (value : String) (signing_key : String) : List Nat :=
  box_encrypt (sha256 signing_key) value

/-- `decrypt_value` (src/litellm/proxy/common_utils/encrypt_decrypt_utils.py,
lines 79-96): SHA-256-hash the signing key, build the same `SecretBox`,
decrypt and UTF-8-decode.  `box_decrypt` may fail (wrong key, corrupt
ciphertext), modelling the exception NaCl raises. -/
def decrypt_value (sha256 : String → List Nat)
    (box_decrypt : List Nat → List Nat → Except E String)
    (value : List Nat) (signing_key : String) : Except E String :=
  box_decrypt (sha256 signing_key) value

/-- `encrypt_value_helper` (encrypt_decrypt_utils.py, lines 18-35): a
string value is encrypted and base64-encoded (then UTF-8-decoded to a
string); a non-string value is returned unchanged, unencrypted.  The
salt-key resolution (`_get_salt_key`) is the `signing_key` parameter;
the try/except re-raises (`raise e`), so failures of the collaborators
propagate unchanged. -/
def encrypt_value_helper (sha256 : String → List Nat)
    (box_encrypt : List Nat → String → List Nat) (signing_key : String)
    (value : SecretVal V) : SecretVal V :=
  match value with
  | .str s =>
    .str (String.mk (b64encodeBytes (encrypt_value sha256 box_encrypt s signing_key)))
  | .other o => .other o

/-- `decrypt_value_helper` (encrypt_decrypt_utils.py, lines 38-55): a
string value is base64-decoded and decrypted inside a try block whose
except clause logs and returns `None` (Python falls off the end of the
function); a non-string value is returned unchanged.  The result type
`Except E (Option _)` records whether an exception escapes the helper:
`.ok none` is the caught-failure path. -/
def decrypt_value_helper (sha256 : String → List Nat)
    (box_decrypt : List Nat → List Nat → Except E String) (signing_key : String)
    (value : SecretVal V) : Except E (Option (SecretVal V)) :=
  match value with
  | .str s =>
    match b64decodeChars s.data with
    | none => .ok none
    | some decoded_b64 =>
      match decrypt_value sha256 box_decrypt decoded_b64 signing_key with
      | .error _ => .ok none
      | .ok plain => .ok (some (.str plain))
  | .other o => .ok (some (.other o))

deriving instance DecidableEq for Except

/-- A concrete canonical parameter value for the end-to-end scenarios:
a JSON-ish number or string. -/
inductive CVal where
  | num : ℚ → CVal
  | str : String → CVal

deriving DecidableEq

instance keysNodupDecidable (l : List (String × A)) : Decidable (keysNodup l) :=
  inferInstanceAs (Decidable (l.map Prod.fst).Nodup)

/-- End-to-end scenario 1: the canonical request
`{model: "ibm/granite-13b", messages: [{role:"user", content:"hi"}],
temperature: 0.5}` mapped by `map_openai_params` and transformed by
`transform_request` (the prompt-conversion collaborator flattens to the
user content; the `_get_api_params` collaborator supplies a project
id). -/
def scenario1Payload : WatsonxPayload CVal :=
  transform_request (fun _ _ msgs => (msgs.map Message.content).headD "")
    (CVal.str "watsonx-project-id") "ibm/granite-13b"
    [{ role := "user", content := "hi" }]
    (map_openai_params [("temperature", CVal.num 0.5)] [] "ibm/granite-13b" false)

@[simp] theorem dictGet_nil (k : String) : dictGet ([] : List (String × A)) k = none := rfl

@[simp] theorem dictGet_cons (p : String × A) (l : List (String × A)) (k : String) :
    dictGet (p :: l) k = if p.1 = k then some p.2 else dictGet l k := rfl

theorem dictGet_dictInsert_same (l : List (String × A)) (k : String) (v : A) :
    dictGet (dictInsert l k v) k = some v := by
  induction l with
  | nil => simp [dictInsert, dictGet]
  | cons p t ih =>
    by_cases hp : p.1 = k
    · simp [dictInsert, hp]
    · simp [dictInsert, hp, ih]

theorem dictGet_dictInsert_other (l : List (String × A)) (k k' : String) (v : A)
    (hne : k' ≠ k) : dictGet (dictInsert l k v) k' = dictGet l k' := by
  have hkk' : ¬ k = k' := fun h => hne h.symm
  induction l with
  | nil => simp [dictInsert, dictGet, hkk']
  | cons p t ih =>
    by_cases hp : p.1 = k
    · have hpk' : ¬ p.1 = k' := by rw [hp]; exact hkk'
      simp [dictInsert, hp, dictGet, hpk', hkk']
    · by_cases hp' : p.1 = k'
      · simp [dictInsert, hp, dictGet, hp', hne]
      · simp [dictInsert, hp, dictGet, hp', ih]

theorem dictInsert_ne_nil (l : List (String × A)) (k : String) (v : A) :
    dictInsert l k v ≠ [] := by
  cases l with
  | nil => simp [dictInsert]
  | cons p t =>
    by_cases hp : p.1 = k <;> simp [dictInsert, hp]

theorem dictPop_cons (p : String × A) (l : List (String × A)) (k : String) :
    dictPop (p :: l) k = if p.1 = k then dictPop l k else p :: dictPop l k := by
  by_cases hp : p.1 = k <;> simp [dictPop, List.filter_cons, hp]

theorem dictGet_dictPop_same (l : List (String × A)) (k : String) :
    dictGet (dictPop l k) k = none := by
  induction l with
  | nil => rfl
  | cons p t ih =>
    rw [dictPop_cons]
    by_cases hp : p.1 = k
    · simpa [hp] using ih
    · simpa [hp] using ih

theorem dictGet_dictPop_other (l : List (String × A)) (k k' : String) (hne : k' ≠ k) :
    dictGet (dictPop l k) k' = dictGet l k' := by
  induction l with
  | nil => rfl
  | cons p t ih =>
    rw [dictPop_cons]
    have hkk' : ¬ k = k' := fun h => hne h.symm
    by_cases hp : p.1 = k
    · simpa [hp, hkk'] using ih
    · by_cases hp' : p.1 = k'
      · simp [hp, hp', hne]
      · simpa [hp, hp'] using ih

theorem topDest_some_ne_extra_body (k n : String) (h : topDest k = some n) :
    n ≠ "extra_body" := by
  delta topDest at h
  split_ifs at h <;>
    first
      | (cases h; decide)
      | (exact absurd h (by decide))

theorem topDest_some_ne_repetition (k n : String) (h : topDest k = some n)
    (hk : k ≠ "frequency_penalty") : n ≠ "repetition_penalty" := by
  delta topDest at h
  split_ifs at h with h1 h2 h3 h4 h5 <;>
    first
      | (exact absurd h5 hk)
      | (cases h; decide)
      | (exact absurd h (by decide))

theorem topDest_frequency_penalty : topDest "frequency_penalty" = some "repetition_penalty" := by
  decide

theorem extraDest_frequency_penalty : extraDest "frequency_penalty" = none := by
  decide

theorem mapParamStep_eb_of_extraDest_none (st : List (String × PVal V) × List (String × V))
    (kv : String × V) (h : extraDest kv.1 = none) : (mapParamStep st kv).2 = st.2 := by
  delta mapParamStep
  cases htop : topDest kv.1 <;> simp [htop, h]

theorem mapParamStep_eb_of_extraDest_some (st : List (String × PVal V) × List (String × V))
    (kv : String × V) (n : String) (htop : topDest kv.1 = none)
    (h : extraDest kv.1 = some n) :
    (mapParamStep st kv).2 = dictInsert st.2 n kv.2 := by
  delta mapParamStep
  simp [htop, h]

theorem extraDest_some_topDest_none (k n : String) (h : extraDest k = some n) :
    topDest k = none := by
  delta extraDest at h
  split_ifs at h with h1 h2 h3 h4 h5 h6 h7
  · rw [h1]; decide
  · rw [h2]; decide
  · rw [h3]; decide
  · rw [h4]; decide
  · rw [h5]; decide
  · rw [h6]; decide
  · rw [h7]; decide

theorem mapParamStep_eb_ne_nil (st : List (String × PVal V) × List (String × V))
    (kv : String × V) (h : st.2 ≠ []) : (mapParamStep st kv).2 ≠ [] := by
  cases heb : extraDest kv.1 with
  | none => rw [mapParamStep_eb_of_extraDest_none st kv heb]; exact h
  | some n =>
    rw [mapParamStep_eb_of_extraDest_some st kv n (extraDest_some_topDest_none _ _ heb) heb]
    exact dictInsert_ne_nil _ _ _

theorem mapParamStep_op_get_extra_body (st : List (String × PVal V) × List (String × V))
    (kv : String × V) :
    dictGet (mapParamStep st kv).1 "extra_body" = dictGet st.1 "extra_body" := by
  delta mapParamStep
  cases htop : topDest kv.1 with
  | some n =>
    simp only [htop]
    exact dictGet_dictInsert_other _ _ _ _ (topDest_some_ne_extra_body _ _ htop).symm
  | none =>
    cases heb : extraDest kv.1 <;> simp [htop, heb]

theorem mapParamStep_op_get_repetition_penalty
    (st : List (String × PVal V) × List (String × V)) (kv : String × V)
    (h : kv.1 ≠ "frequency_penalty") :
    dictGet (mapParamStep st kv).1 "repetition_penalty" =
      dictGet st.1 "repetition_penalty" := by
  delta mapParamStep
  cases htop : topDest kv.1 with
  | some n =>
    simp only [htop]
    exact dictGet_dictInsert_other _ _ _ _ (topDest_some_ne_repetition _ _ htop h).symm
  | none =>
    cases heb : extraDest kv.1 <;> simp [htop, heb]

theorem mapParamStep_frequency_penalty (st : List (String × PVal V) × List (String × V))
    (kv : String × V) (h : kv.1 = "frequency_penalty") :
    (mapParamStep st kv).1 = dictInsert st.1 "repetition_penalty" (.v kv.2) := by
  delta mapParamStep
  rw [h, topDest_frequency_penalty]

theorem foldl_eb_of_no_extra (ndp : List (String × V))
    (st : List (String × PVal V) × List (String × V))
    (h : ∀ kv ∈ ndp, extraDest kv.1 = none) :
    (ndp.foldl mapParamStep st).2 = st.2 := by
  induction ndp generalizing st with
  | nil => rfl
  | cons kv t ih =>
    rw [List.foldl_cons, ih _ (fun p hp => h p (List.mem_cons_of_mem _ hp))]
    exact mapParamStep_eb_of_extraDest_none st kv (h kv (List.mem_cons_self _ _))

theorem foldl_eb_ne_nil (ndp : List (String × V))
    (st : List (String × PVal V) × List (String × V)) (h : st.2 ≠ []) :
    (ndp.foldl mapParamStep st).2 ≠ [] := by
  induction ndp generalizing st with
  | nil => exact h
  | cons kv t ih =>
    rw [List.foldl_cons]
    exact ih _ (mapParamStep_eb_ne_nil st kv h)

theorem foldl_eb_ne_nil_of_mem (ndp : List (String × V))
    (st : List (String × PVal V) × List (String × V)) (kv : String × V)
    (hmem : kv ∈ ndp) (hk : (extraDest kv.1).isSome) :
    (ndp.foldl mapParamStep st).2 ≠ [] := by
  induction ndp generalizing st with
  | nil => cases hmem
  | cons p t ih =>
    rw [List.foldl_cons]
    rcases List.mem_cons.mp hmem with heq | hmem'
    · subst heq
      obtain ⟨n, hn⟩ := Option.isSome_iff_exists.mp hk
      apply foldl_eb_ne_nil
      rw [mapParamStep_eb_of_extraDest_some st kv n (extraDest_some_topDest_none _ _ hn) hn]
      exact dictInsert_ne_nil _ _ _
    · exact ih _ hmem'

theorem foldl_op_get_extra_body (ndp : List (String × V))
    (st : List (String × PVal V) × List (String × V)) :
    dictGet (ndp.foldl mapParamStep st).1 "extra_body" = dictGet st.1 "extra_body" := by
  induction ndp generalizing st with
  | nil => rfl
  | cons kv t ih =>
    rw [List.foldl_cons, ih _, mapParamStep_op_get_extra_body]

theorem foldl_op_get_repetition_of_absent (ndp : List (String × V))
    (st : List (String × PVal V) × List (String × V))
    (h : ∀ kv ∈ ndp, kv.1 ≠ "frequency_penalty") :
    dictGet (ndp.foldl mapParamStep st).1 "repetition_penalty" =
      dictGet st.1 "repetition_penalty" := by
  induction ndp generalizing st with
  | nil => rfl
  | cons kv t ih =>
    rw [List.foldl_cons, ih _ (fun p hp => h p (List.mem_cons_of_mem _ hp)),
      mapParamStep_op_get_repetition_penalty st kv (h kv (List.mem_cons_self _ _))]

theorem foldl_op_get_repetition_of_mem (ndp : List (String × V))
    (st : List (String × PVal V) × List (String × V)) (w : V)
    (hnodup : keysNodup ndp) (hmem : ("frequency_penalty", w) ∈ ndp) :
    dictGet (ndp.foldl mapParamStep st).1 "repetition_penalty" = some (.v w) := by
  induction ndp generalizing st with
  | nil => cases hmem
  | cons p t ih =>
    rw [List.foldl_cons]
    rcases List.mem_cons.mp hmem with heq | hmem'
    · subst heq
      have hnot : ∀ kv ∈ t, kv.1 ≠ "frequency_penalty" := by
        intro kv hkv hk
        have := (List.nodup_cons.mp hnodup).1
        exact this (by simpa [hk] using List.mem_map_of_mem Prod.fst hkv)
      rw [foldl_op_get_repetition_of_absent t _ hnot,
        mapParamStep_frequency_penalty st _ rfl]
      exact dictGet_dictInsert_same _ _ _
    · exact ih _ (List.Nodup.of_cons hnodup) hmem'

theorem extraDest_mem_pairs (k n : String) (h : extraDest k = some n) :
    (k, n) ∈ [("decoding_method", "decoding_method"), ("min_tokens", "min_new_tokens"),
      ("top_k", "top_k"), ("truncate_input_tokens", "truncate_input_tokens"),
      ("length_penalty", "length_penalty"), ("time_limit", "time_limit"),
      ("return_options", "return_options")] := by
  delta extraDest at h
  split_ifs at h with h1 h2 h3 h4 h5 h6 h7 <;>
    (first
      | (cases h; subst_vars; simp)
      | cases h)

theorem extraDest_inj (k k' n : String) (h : extraDest k = some n)
    (h' : extraDest k' = some n) : k = k' := by
  have m1 := extraDest_mem_pairs k n h
  have m2 := extraDest_mem_pairs k' n h'
  have : ∀ p ∈ [("decoding_method", "decoding_method"), ("min_tokens", "min_new_tokens"),
      ("top_k", "top_k"), ("truncate_input_tokens", "truncate_input_tokens"),
      ("length_penalty", "length_penalty"), ("time_limit", "time_limit"),
      ("return_options", "return_options")],
      ∀ q ∈ [("decoding_method", "decoding_method"), ("min_tokens", "min_new_tokens"),
      ("top_k", "top_k"), ("truncate_input_tokens", "truncate_input_tokens"),
      ("length_penalty", "length_penalty"), ("time_limit", "time_limit"),
      ("return_options", "return_options")],
      p.2 = q.2 → p.1 = q.1 := by decide
  exact this _ m1 _ m2 rfl

theorem mapParamStep_eb_get_of_ne (st : List (String × PVal V) × List (String × V))
    (kv : String × V) (n0 : String) (h : extraDest kv.1 ≠ some n0) :
    dictGet (mapParamStep st kv).2 n0 = dictGet st.2 n0 := by
  cases heb : extraDest kv.1 with
  | none => rw [mapParamStep_eb_of_extraDest_none st kv heb]
  | some n =>
    rw [mapParamStep_eb_of_extraDest_some st kv n (extraDest_some_topDest_none _ _ heb) heb]
    exact dictGet_dictInsert_other _ _ _ _ (by rintro rfl; exact h heb)

theorem foldl_eb_get_of_absent (ndp : List (String × V))
    (st : List (String × PVal V) × List (String × V)) (n0 : String)
    (h : ∀ kv ∈ ndp, extraDest kv.1 ≠ some n0) :
    dictGet (ndp.foldl mapParamStep st).2 n0 = dictGet st.2 n0 := by
  induction ndp generalizing st with
  | nil => rfl
  | cons kv t ih =>
    rw [List.foldl_cons, ih _ (fun p hp => h p (List.mem_cons_of_mem _ hp)),
      mapParamStep_eb_get_of_ne st kv n0 (h kv (List.mem_cons_self _ _))]

theorem foldl_eb_get_of_mem (ndp : List (String × V))
    (st : List (String × PVal V) × List (String × V)) (k0 n0 : String) (w : V)
    (hnodup : keysNodup ndp) (hmem : (k0, w) ∈ ndp) (hd : extraDest k0 = some n0) :
    dictGet (ndp.foldl mapParamStep st).2 n0 = some w := by
  induction ndp generalizing st with
  | nil => cases hmem
  | cons p t ih =>
    rw [List.foldl_cons]
    rcases List.mem_cons.mp hmem with heq | hmem'
    · subst heq
      have habs : ∀ kv ∈ t, extraDest kv.1 ≠ some n0 := by
        intro kv hkv hk
        have hkey : kv.1 = k0 := extraDest_inj _ _ _ hk hd
        have := (List.nodup_cons.mp hnodup).1
        exact this (by simpa [hkey] using List.mem_map_of_mem Prod.fst hkv)
      rw [foldl_eb_get_of_absent t _ n0 habs,
        mapParamStep_eb_of_extraDest_some st _ n0 (extraDest_some_topDest_none _ _ hd) hd]
      exact dictGet_dictInsert_same _ _ _
    · exact ih _ (List.Nodup.of_cons hnodup) hmem'

theorem charToSextet_sextetToChar : ∀ n, n < 64 → charToSextet (sextetToChar n) = some n := by
  decide

theorem sextetToChar_ne_pad : ∀ n, n < 64 → sextetToChar n ≠ '=' := by
  decide

theorem b64_roundtrip (l : List Nat) (h : ∀ x ∈ l, x < 256) :
    b64decodeChars (b64encodeBytes l) = some l := by
  induction l using b64encodeBytes.induct with
  | case1 a b c rest ih =>
    have ha : a < 256 := h a (by simp)
    have hb : b < 256 := h b (by simp)
    have hc : c < 256 := h c (by simp)
    have h1 := charToSextet_sextetToChar (a / 4) (by omega)
    have h2 := charToSextet_sextetToChar ((a % 4) * 16 + b / 16) (by omega)
    have h3 := charToSextet_sextetToChar ((b % 16) * 4 + c / 64) (by omega)
    have h4 := charToSextet_sextetToChar (c % 64) (by omega)
    have hne3 := sextetToChar_ne_pad ((b % 16) * 4 + c / 64) (by omega)
    have hne4 := sextetToChar_ne_pad (c % 64) (by omega)
    have hrest := ih (fun x hx => h x (by simp [hx]))
    simp only [b64encodeBytes, b64decodeChars, h1, h2, h3, h4, hne3, hne4,
      if_false, hrest, Option.map_some]
    refine congrArg some ?_
    refine List.cons_eq_cons.mpr ⟨by omega, ?_⟩
    refine List.cons_eq_cons.mpr ⟨by omega, ?_⟩
    exact List.cons_eq_cons.mpr ⟨by omega, rfl⟩
  | case2 a b =>
    have ha : a < 256 := h a (by simp)
    have hb : b < 256 := h b (by simp)
    have h1 := charToSextet_sextetToChar (a / 4) (by omega)
    have h2 := charToSextet_sextetToChar ((a % 4) * 16 + b / 16) (by omega)
    have h3 := charToSextet_sextetToChar ((b % 16) * 4) (by omega)
    have hne3 := sextetToChar_ne_pad ((b % 16) * 4) (by omega)
    simp only [b64encodeBytes, b64decodeChars, h1, h2, h3, hne3, if_false, if_true]
    refine congrArg some ?_
    refine List.cons_eq_cons.mpr ⟨by omega, ?_⟩
    exact List.cons_eq_cons.mpr ⟨by omega, rfl⟩
  | case3 a =>
    have ha : a < 256 := h a (by simp)
    have h1 := charToSextet_sextetToChar (a / 4) (by omega)
    have h2 := charToSextet_sextetToChar ((a % 4) * 16) (by omega)
    simp only [b64encodeBytes, b64decodeChars, h1, h2, if_true]
    refine congrArg some ?_
    exact List.cons_eq_cons.mpr ⟨by omega, rfl⟩
  | case4 => rfl

/-- C1 (counterexample): in end-to-end scenario 1 the code does not strip
the `ibm/` prefix: `transform_request` sets `model_id` to the full
canonical model string `"ibm/granite-13b"`, so the claimed
`model_id: "granite-13b"` is false. -/
theorem scenario1_model_id_not_stripped :
    scenario1Payload.model_id = some "ibm/granite-13b" ∧
    ¬ scenario1Payload.model_id = some "granite-13b" := by
  have hm : scenario1Payload.model_id = some "ibm/granite-13b" := rfl
  refine ⟨hm, ?_⟩
  rw [hm]
  decide

/-- C1 (amended): scenario 1 yields a payload whose `parameters` contains
the mapped temperature `0.5` and whose top level contains `model_id` equal
to the full canonical model string `"ibm/granite-13b"` (the provider
prefix is not stripped) plus a `project_id`, and no deployment
addressing; in general, for every non-deployment model the payload's
`model_id` is the canonical model identifier unchanged. -/
theorem transform_request_model_id_full (V : Type u)
    (cp : String → String → List Message → String) (pid : V) (model : String)
    (messages : List Message) (op : List (String × PVal V))
    (h : ¬ pyStartsWith model "deployment/" = true) :
    (dictGet scenario1Payload.parameters "temperature" = some (.v (CVal.num 0.5)) ∧
     scenario1Payload.model_id = some "ibm/granite-13b" ∧
     scenario1Payload.project_id.isSome = true) ∧
    (transform_request cp pid model messages op).model_id = some model := by
  refine ⟨⟨rfl, rfl, rfl⟩, ?_⟩
  simp [transform_request, h]

/-- C1 (witness for the amended claim's general part). -/
theorem transform_request_model_id_full_witness :
    (transform_request (fun _ _ _ => "p") (CVal.str "pid") "ibm/granite-13b"
      [] ([] : List (String × PVal CVal))).model_id = some "ibm/granite-13b" :=
  (transform_request_model_id_full CVal (fun _ _ _ => "p") (CVal.str "pid")
    "ibm/granite-13b" [] [] (by decide)).2

/-- C2 (counterexample): a POST whose body fails to parse (absent or
non-JSON) makes both body-inspecting routes propagate the parse
exception — `await request.json()` has no try/except — instead of
treating it as not streaming. -/
theorem post_body_parse_failure_raises :
    anthropic_is_streaming (fun b : Bool => b) "POST" (.error ()) = .error () ∧
    assemblyai_is_streaming (fun b : Bool => b) "POST" (.error ()) = .error () ∧
    ¬ anthropic_is_streaming (fun b : Bool => b) "POST" (.error ()) = .ok false := by
  refine ⟨rfl, rfl, fun h => ?_⟩
  simpa [anthropic_is_streaming] using h

/-- C2 (amended): for the anthropic and assemblyai pass-through routes, a
POST request whose parsed body has a truthy `stream` field is detected as
streaming (the URL is never consulted by these routes, so no URL marker
is needed); a GET request is never inspected for a body-level stream
flag; but a POST whose body is absent or non-JSON propagates the parse
exception rather than being treated as not streaming. -/
theorem body_stream_detection (V : Type u) (truthy : V → Bool)
    (body : List (String × V)) (v : V) (rj : Except Unit (List (String × V)))
    (hv : dictGet body "stream" = some v) (ht : truthy v = true) :
    (anthropic_is_streaming truthy "POST" (.ok body) = .ok true ∧
     assemblyai_is_streaming truthy "POST" (.ok body) = .ok true) ∧
    (anthropic_is_streaming truthy "GET" rj = .ok false ∧
     assemblyai_is_streaming truthy "GET" rj = .ok false) ∧
    (anthropic_is_streaming truthy "POST" (.error ()) = .error () ∧
     assemblyai_is_streaming truthy "POST" (.error ()) = .error ()) := by
  refine ⟨⟨?_, ?_⟩, ⟨?_, ?_⟩, rfl, rfl⟩ <;>
    simp [anthropic_is_streaming, assemblyai_is_streaming, hv, ht]

/-- C2 (witness for the amended claim). -/
theorem body_stream_detection_witness :
    anthropic_is_streaming (fun b : Bool => b) "POST" (.ok [("stream", true)]) = .ok true :=
  ((body_stream_detection Bool (fun b => b) [("stream", true)] true (.ok [])
    (by decide) rfl).1).1

/-- C3: parameters whose destination is the extra body accumulate into a
single nested object attached under the single key `"extra_body"` when
non-empty (each such parameter's value lands at its destination name
inside that object), and when no passed key maps to an extra-body field
the mapped output contains no `extra_body` entry at all. -/
theorem map_openai_params_extra_body (V : Type u) (ndp : List (String × V))
    (op : List (String × PVal V)) (model : String) (dp : Bool)
    (h : dictGet op "extra_body" = none) :
    ((∀ kv ∈ ndp, extraDest kv.1 = none) →
      dictGet (map_openai_params ndp op model dp) "extra_body" = none) ∧
    (∀ kv ∈ ndp, ∀ n, extraDest kv.1 = some n → keysNodup ndp →
      ∃ eb, eb ≠ [] ∧
        dictGet (map_openai_params ndp op model dp) "extra_body" = some (.dict eb) ∧
        dictGet eb n = some kv.2) := by
  constructor
  · intro hno
    have he : (ndp.foldl mapParamStep (op, [])).2 = [] :=
      foldl_eb_of_no_extra ndp (op, []) hno
    simp only [map_openai_params, he, List.isEmpty_nil, if_true]
    rw [foldl_op_get_extra_body]
    exact h
  · intro kv hkv n hn hnodup
    have hne : (ndp.foldl mapParamStep (op, [])).2 ≠ [] :=
      foldl_eb_ne_nil_of_mem ndp (op, []) kv hkv (by rw [hn]; rfl)
    refine ⟨(ndp.foldl mapParamStep (op, [])).2, hne, ?_, ?_⟩
    · simp only [map_openai_params]
      rw [if_neg (by simpa using hne)]
      exact dictGet_dictInsert_same _ _ _
    · exact foldl_eb_get_of_mem ndp (op, []) kv.1 n kv.2 hnodup (by simpa using hkv) hn

/-- C3 (witness). -/
theorem map_openai_params_extra_body_witness :
    ∃ eb, eb ≠ [] ∧
      dictGet (map_openai_params [("top_k", (5 : Int))] [] "m" false) "extra_body" =
        some (.dict eb) ∧ dictGet eb "top_k" = some 5 :=
  (map_openai_params_extra_body Int [("top_k", 5)] [] "m" false rfl).2
    ("top_k", 5) (by decide) "top_k" (by decide) (by decide)

theorem pyOr_some_truthy (u : String) (hu : u ≠ "") (b : Option String) :
    pyOr (some u) b = some u := by
  simp [pyOr, hu]

/-- C4: `get_complete_url` resolves the watsonx base URL from the
explicit `api_base` argument first, else from the environment aliases
`WATSONX_API_BASE`, `WATSONX_URL`, `WX_URL`, `WML_URL` in that fixed
order (the first present alias wins and later aliases are ignored — the
function's result depends on the environment only through this
resolution), and when none resolve it fails with a `WatsonXAIError`
carrying status 401, before any network call (the embedding is a pure
function of its inputs). -/
theorem get_complete_url_resolution (env env' : String → Option String)
    (api_base api_base' : Option String) (model : String)
    (op : List (String × String)) (stream : Bool) (u : String) (hu : u ≠ "") :
    (watsonx_url_resolution env (some u) = some u) ∧
    (env "WATSONX_API_BASE" = some u →
      watsonx_url_resolution env none = some u) ∧
    (env "WATSONX_API_BASE" = none → env "WATSONX_URL" = some u →
      watsonx_url_resolution env none = some u) ∧
    (env "WATSONX_API_BASE" = none → env "WATSONX_URL" = none →
      env "WX_URL" = some u → watsonx_url_resolution env none = some u) ∧
    (env "WATSONX_API_BASE" = none → env "WATSONX_URL" = none →
      env "WX_URL" = none → env "WML_URL" = some u →
      watsonx_url_resolution env none = some u) ∧
    (watsonx_url_resolution env api_base = watsonx_url_resolution env' api_base' →
      get_complete_url env api_base model op stream =
        get_complete_url env' api_base' model op stream) ∧
    (watsonx_url_resolution env api_base = none →
      ∃ e : WatsonXAIError, e.status_code = 401 ∧
        get_complete_url env api_base model op stream = .error e) := by
  refine ⟨?_, ?_, ?_, ?_, ?_, ?_, ?_⟩
  · exact pyOr_some_truthy u hu _
  · intro h1
    simp [watsonx_url_resolution, pyOr, h1, hu]
  · intro h1 h2
    simp [watsonx_url_resolution, pyOr, h1, h2, hu]
  · intro h1 h2 h3
    simp [watsonx_url_resolution, pyOr, h1, h2, h3, hu]
  · intro h1 h2 h3 h4
    simp [watsonx_url_resolution, pyOr, h1, h2, h3, h4, hu]
  · intro heq
    simp only [get_complete_url, heq]
  · intro hnone
    refine ⟨WatsonXAIError.mk 401
      "Error: Watsonx URL not set. Set WATSONX_API_BASE in environment variables or pass in as parameter - 'api_base='.",
      rfl, ?_⟩
    simp only [get_complete_url, hnone]

/-- C4 (witness): with `WATSONX_API_BASE` unset and `WATSONX_URL` set
(and the later aliases also set, to be ignored), the resolution yields
the `WATSONX_URL` value. -/
theorem get_complete_url_resolution_witness :
    watsonx_url_resolution
      (fun k => if k = "WATSONX_URL" then some "https://u" else
        if k = "WATSONX_API_BASE" then none else some "ignored") none =
      some "https://u" :=
  (get_complete_url_resolution
    (fun k => if k = "WATSONX_URL" then some "https://u" else
      if k = "WATSONX_API_BASE" then none else some "ignored")
    (fun _ => none) none none "m" [] false "https://u" (by decide)).2.2.1
    (by decide) (by decide)

/-- C5: for every base URL and model, `get_complete_url` uses the
non-streaming text-generation endpoint template for a non-deployment
model with stream falsy, the streaming template with stream truthy, and
for a `deployment/<id>` model the deployment-addressing templates (the
deployment id being the model identifier after the reserved first
segment), each followed by the API-version query parameter; and
`transform_request` omits both `model_id` and `project_id` from the
payload for deployment models. -/
theorem get_complete_url_templates (V : Type u) (env : String → Option String)
    (u : String) (hu : u ≠ "") (model : String) (op : List (String × String))
    (cp : String → String → List Message → String) (pid : V)
    (messages : List Message) (op' : List (String × PVal V)) :
    (¬ pyStartsWith model "deployment/" = true →
      (get_complete_url env (some u) model op false =
        .ok (pyRStrip u '/' ++ TEXT_GENERATION ++ "?version=" ++
          ((dictGet op "api_version").getD WATSONX_DEFAULT_API_VERSION)) ∧
       get_complete_url env (some u) model op true =
        .ok (pyRStrip u '/' ++ TEXT_GENERATION_STREAM ++ "?version=" ++
          ((dictGet op "api_version").getD WATSONX_DEFAULT_API_VERSION)))) ∧
    (pyStartsWith model "deployment/" = true → (dictGet op "space_id").isSome = true →
      (get_complete_url env (some u) model op false =
        .ok (pyRStrip u '/' ++
          DEPLOYMENT_TEXT_GENERATION (String.intercalate "/" ((pySplit model '/').drop 1)) ++
          "?version=" ++ ((dictGet op "api_version").getD WATSONX_DEFAULT_API_VERSION)) ∧
       get_complete_url env (some u) model op true =
        .ok (pyRStrip u '/' ++
          DEPLOYMENT_TEXT_GENERATION_STREAM (String.intercalate "/" ((pySplit model '/').drop 1)) ++
          "?version=" ++ ((dictGet op "api_version").getD WATSONX_DEFAULT_API_VERSION)))) ∧
    (pyStartsWith model "deployment/" = true →
      (transform_request cp pid model messages op').model_id = none ∧
      (transform_request cp pid model messages op').project_id = none) := by
  have hres : watsonx_url_resolution env (some u) = some u := pyOr_some_truthy u hu _
  refine ⟨?_, ?_, ?_⟩
  · intro h
    constructor <;> simp [get_complete_url, hres, h]
  · intro h hsp
    obtain ⟨sv, hsv⟩ := Option.isSome_iff_exists.mp hsp
    constructor <;> simp [get_complete_url, hres, h, hsv]
  · intro h
    constructor <;> simp [transform_request, h]

/-- C5 (witness): a concrete deployment-model streaming URL. -/
theorem get_complete_url_templates_witness :
    get_complete_url (fun _ => none) (some "https://h") "deployment/abc123"
        [("space_id", "s")] true =
      .ok "https://h/ml/v1/deployments/abc123/text/generation_stream?version=2024-03-13" :=
  (((get_complete_url_templates Unit (fun _ => none) "https://h" (by decide)
    "deployment/abc123" [("space_id", "s")] (fun _ _ _ => "") () [] []).2.1
    (by decide) (by decide)).2).trans (by decide)

/-- C6: `validate_environment` always returns headers containing
`Content-Type: application/json` and `Accept: application/json` and an
`Authorization` header; an explicit truthy token from `optional_params`
is used as-is as `Bearer <token>`, otherwise the token comes from the
token-issuance collaborator (whose failure is fatal, so no header set is
ever returned without `Authorization`); caller-supplied headers are
discarded wholesale, hence same-named ones are overridden, not merged. -/
theorem validate_environment_headers (headers headers' : List (String × String))
    (model : String) (messages : List Message) (op : List (String × String))
    (api_key : Option String)
    (gen : Option String → Option String → Except WatsonXAIError String) :
    (validate_environment headers model messages op api_key gen =
      validate_environment headers' model messages op api_key gen) ∧
    (∀ t, dictGet op "token" = some t → t ≠ "" →
      validate_environment headers model messages op api_key gen =
        .ok [("Content-Type", "application/json"), ("Accept", "application/json"),
             ("Authorization", "Bearer " ++ t)]) ∧
    (∀ h', validate_environment headers model messages op api_key gen = .ok h' →
      dictGet h' "Content-Type" = some "application/json" ∧
      dictGet h' "Accept" = some "application/json" ∧
      ∃ t, dictGet h' "Authorization" = some ("Bearer " ++ t)) := by
  refine ⟨rfl, ?_, ?_⟩
  · intro t ht hne
    simp only [validate_environment, ht, if_neg hne]
    rfl
  · intro h' hok
    cases hg : dictGet op "token" with
    | some t =>
      simp only [validate_environment, hg] at hok
      by_cases hte : t = ""
      · rw [if_pos hte] at hok
        cases hgen : gen api_key (some t) with
        | error e => rw [hgen] at hok; simp [Except.map] at hok
        | ok tok =>
          rw [hgen] at hok
          simp only [Except.map, Except.ok.injEq] at hok
          subst hok
          exact ⟨rfl, rfl, tok, rfl⟩
      · rw [if_neg hte] at hok
        simp only [Except.ok.injEq] at hok
        subst hok
        exact ⟨rfl, rfl, t, rfl⟩
    | none =>
      simp only [validate_environment, hg] at hok
      cases hgen : gen api_key none with
      | error e => rw [hgen] at hok; simp [Except.map] at hok
      | ok tok =>
        rw [hgen] at hok
        simp only [Except.map, Except.ok.injEq] at hok
        subst hok
        exact ⟨rfl, rfl, tok, rfl⟩

/-- C6 (witness): an explicit token is used as-is. -/
theorem validate_environment_headers_witness :
    validate_environment [] "m" [] [("token", "tok")] none
        (fun _ _ => .error (WatsonXAIError.mk 500 "down")) =
      .ok [("Content-Type", "application/json"), ("Accept", "application/json"),
           ("Authorization", "Bearer tok")] :=
  ((validate_environment_headers [] [] "m" [] [("token", "tok")] none
    (fun _ _ => .error (WatsonXAIError.mk 500 "down"))).2.1 "tok"
    (by decide) (by decide)).trans (by decide)

/-- C7: every pass-through call routed through the shared openai/azure
handler carries the dual headers `authorization: Bearer <token>` and
`api-key: <token>`; in particular for path `/v1/chat/completions` with
token `"abc"` the outbound custom headers are
`authorization: Bearer abc` and `api-key: abc`. -/
theorem dual_header_strategy (url_path : String → String)
    (copy_with_path : String → String → String)
    (endpoint base_target_url api_key : String) (qp : List (String × String)) :
    (base_openai_pass_through_handler url_path copy_with_path endpoint base_target_url
        api_key qp).custom_headers =
      [("authorization", "Bearer " ++ api_key), ("api-key", api_key)] ∧
    (base_openai_pass_through_handler (fun s => s) (fun b p => b ++ p)
        "/v1/chat/completions" "https://api.openai.com" "abc" []).custom_headers =
      [("authorization", "Bearer abc"), ("api-key", "abc")] := by
  exact ⟨rfl, by decide⟩

/-- C8: whenever the canonical parameters contain `frequency_penalty`
with value `v`, the mapped native parameters contain
`repetition_penalty` with exactly the same value `v` — a direct value
copy with no unit conversion or rescaling. -/
theorem frequency_penalty_direct_copy (V : Type u) (ndp : List (String × V))
    (op : List (String × PVal V)) (model : String) (dp : Bool) (v : V)
    (hnodup : keysNodup ndp) (hmem : ("frequency_penalty", v) ∈ ndp) :
    dictGet (map_openai_params ndp op model dp) "repetition_penalty" = some (.v v) := by
  have hr := foldl_op_get_repetition_of_mem ndp (op, []) v hnodup hmem
  simp only [map_openai_params]
  split
  · exact hr
  · rw [dictGet_dictInsert_other _ _ _ _ (by decide)]
    exact hr

/-- C8 (witness). -/
theorem frequency_penalty_direct_copy_witness :
    dictGet (map_openai_params [("frequency_penalty", (2 : Int))] [] "m" false)
      "repetition_penalty" = some (.v 2) :=
  frequency_penalty_direct_copy Int [("frequency_penalty", 2)] [] "m" false 2
    (by decide) (by decide)

/-- C9: `decrypt_value_helper` never propagates an exception: whatever
the decryption collaborators do (wrong key, corrupt base64, bad
ciphertext), the helper returns normally (`.ok`), so one failed secret
cannot abort processing of other secrets. -/
theorem decrypt_value_helper_non_blocking (V E : Type u) (sha256 : String → List Nat)
    (box_decrypt : List Nat → List Nat → Except E String) (signing_key : String)
    (value : SecretVal V) :
    ∃ r, decrypt_value_helper sha256 box_decrypt signing_key value = .ok r := by
  cases value with
  | str s =>
    cases hb : b64decodeChars s.data with
    | none => exact ⟨none, by simp [decrypt_value_helper, hb]⟩
    | some bs =>
      cases hd : decrypt_value sha256 box_decrypt bs signing_key with
      | error e => exact ⟨none, by simp [decrypt_value_helper, hb, hd]⟩
      | ok p => exact ⟨some (.str p), by simp [decrypt_value_helper, hb, hd]⟩
  | other o => exact ⟨some (.other o), rfl⟩

/-- C10: the secret-protection helpers round-trip: with the same signing
key on both sides (and the NaCl box collaborator satisfying its
decrypt-of-encrypt contract, producing byte-valued ciphertext),
`decrypt_value` inverts `encrypt_value`, and `decrypt_value_helper`
recovers the exact string produced by `encrypt_value_helper`. -/
theorem secret_roundtrip (V E : Type u) (sha256 : String → List Nat)
    (box_encrypt : List Nat → String → List Nat)
    (box_decrypt : List Nat → List Nat → Except E String) (s k : String)
    (hbox : box_decrypt (sha256 k) (box_encrypt (sha256 k) s) = .ok s)
    (hbytes : ∀ x ∈ box_encrypt (sha256 k) s, x < 256) :
    decrypt_value sha256 box_decrypt (encrypt_value sha256 box_encrypt s k) k = .ok s ∧
    decrypt_value_helper sha256 box_decrypt k
        (encrypt_value_helper sha256 box_encrypt k (.str s) : SecretVal V) =
      .ok (some (.str s)) := by
  constructor
  · exact hbox
  · simp only [encrypt_value_helper, decrypt_value_helper]
    have hbytes' : ∀ x ∈ encrypt_value sha256 box_encrypt s k, x < 256 := hbytes
    rw [b64_roundtrip (encrypt_value sha256 box_encrypt s k) hbytes']
    simp only [decrypt_value, encrypt_value] at hbox ⊢
    rw [hbox]

/-- C10 (witness): a concrete round trip through the helpers. -/
theorem secret_roundtrip_witness :
    decrypt_value_helper (fun _ => ([] : List Nat))
        (fun _ bs => (.ok (String.mk (bs.map Char.ofNat)) : Except Unit String)) "key"
        (encrypt_value_helper (fun _ => ([] : List Nat))
          (fun _ m => m.toList.map Char.toNat) "key" (.str "hi") : SecretVal Unit) =
      .ok (some (.str "hi")) :=
  (secret_roundtrip Unit Unit (fun _ => []) (fun _ m => m.toList.map Char.toNat)
    (fun _ bs => .ok (String.mk (bs.map Char.ofNat))) "hi" "key"
    (by decide) (by decide)).2

end LitellmSpec
